import Mathlib

/-!
Shallow embedding of the Skillora AI voice-assistant server
(an Express application orchestrating a telephony provider, a
completion provider, and a speech-synthesis provider).

External providers are modelled as oracle inputs:
  * the completion provider is a function from the message array to
    `Option String` (`none` models any thrown error: network, quota,
    malformed response);
  * the synthesis provider is a function from (text, locale code) to
    `Option (List String)` (`none` models a failed request, `some audios`
    models a response whose `audios` array is as given; the JS code reads
    `audios[0]` and treats a missing or empty entry as falsy).

The in-memory `conversationHistory` Map is modelled as an association
list with JS-Map-faithful get/set/delete operations, and the filesystem
(for the audio-artifact janitor) as a list of distinct paths.
-/

namespace Skillora

/-! ## Data model: roles, turns, sessions -/

/-- Message role, as used in the chat-style message arrays. -/
inductive Role where
  | system
  | user
  | assistant
deriving DecidableEq, Repr

/-- The optional `metadata` object attached to stored turns.
The phone path stores `\x7b originalLanguage, original \x7d` on user turns and
`\x7b language \x7d` on assistant turns; absent keys are `none`. -/
structure TurnMeta where
  originalLanguage : Option String
  original : Option String
  language : Option String
deriving DecidableEq, Repr

/-- One entry of a message array or of a stored transcript:
`\x7b role, content, metadata? \x7d`. -/
structure Turn where
  role : Role
  content : String
  metadata : Option TurnMeta
deriving DecidableEq, Repr

/-- The `conversationHistory` Map: call SID to ordered transcript. -/
abbrev SessionStore := List (String × List Turn)

/-- `Map.prototype.get` composed with `Map.prototype.has`:
first (unique) entry with the given key. -/
def storeGet : SessionStore → String → Option (List Turn)
  | [], _ => none
  | (k, v) :: rest, sid => if k = sid then some v else storeGet rest sid

/-- `Map.prototype.set`: replace the value of an existing key in place,
otherwise append the new entry at the end (JS Map insertion order). -/
def storeSet : SessionStore → String → List Turn → SessionStore
  | [], sid, v => [(sid, v)]
  | (k, w) :: rest, sid, v =>
    if k = sid then (sid, v) :: rest else (k, w) :: storeSet rest sid v

/-- `Map.prototype.delete`: remove the entry with the given key. -/
def storeDelete : SessionStore → String → SessionStore
  | [], _ => []
  | (k, w) :: rest, sid =>
    if k = sid then storeDelete rest sid else (k, w) :: storeDelete rest sid

/-! ## JS string utilities used by the correction service

`String.prototype.trim` and the two tolerant regular-expression matches
`/LANGUAGE:\s*([a-z]\x7b2\x7d)/i` and `/CORRECTED:\s*(.+)/i` are modelled
character-exactly, including backtracking of the greedy `\s*` and the
first-match (leftmost occurrence) search semantics. -/

/-- JS `\s` (WhiteSpace and LineTerminator productions). -/
def isJsWhitespace (c : Char) : Bool :=
  c == ' ' || c == '\t' || c == '\n' || c == '\r' || c == '\x0b' || c == '\x0c' ||
  c == '\u00A0' || c == '\u1680' || (0x2000 ≤ c.toNat && c.toNat ≤ 0x200A) ||
  c == '\u2028' || c == '\u2029' || c == '\u202F' || c == '\u205F' || c == '\u3000' ||
  c == '\uFEFF'

/-- JS line terminators, which `.` (without the `s` flag) does not match. -/
def isLineTerm (c : Char) : Bool :=
  c == '\n' || c == '\r' || c == '\u2028' || c == '\u2029'

/-- `String.prototype.trim`. -/
def jsTrim (s : String) : String :=
  String.mk (((s.toList.dropWhile isJsWhitespace).reverse.dropWhile isJsWhitespace).reverse)

/-- Case-insensitive literal match: if the input starts with the given
(lower-case) literal, return the remaining characters. -/
def ciLit : List Char → List Char → Option (List Char)
  | [], rest => some rest
  | _ :: _, [] => none
  | l :: ls, c :: cs => if c.toLower == l then ciLit ls cs else none

/-- After the literal `LANGUAGE:`, the pattern `\s*([a-z]\x7b2\x7d)` with the
`i` flag: skip whitespace, then capture two ASCII letters (the JS code
lower-cases the captured group). `\s*` cannot backtrack usefully here
because a whitespace character is never a letter. -/
def langCapture (rest : List Char) : Option (List Char) :=
  match rest.dropWhile isJsWhitespace with
  | a :: b :: _ => if a.isAlpha && b.isAlpha then some [a.toLower, b.toLower] else none
  | _ => none

/-- Leftmost-occurrence scan for `/LANGUAGE:\s*([a-z]\x7b2\x7d)/i`. -/
def scanLanguage : List Char → Option (List Char)
  | [] => none
  | c :: cs =>
    match ciLit "language:".toList (c :: cs) with
    | some rest =>
      match langCapture rest with
      | some capture => some capture
      | none => scanLanguage cs
    | none => scanLanguage cs

/-- After the literal `CORRECTED:`, the pattern `\s*(.+)`: greedy `\s*`
with backtracking. If a non-whitespace character follows the whitespace
run, the capture starts there and extends to the next line terminator.
Otherwise backtracking hands single whitespace characters back to `.+`,
and the match succeeds on the last non-line-terminator whitespace
character of the run, if any. -/
def corrCapture (rest : List Char) : Option (List Char) :=
  match rest.dropWhile isJsWhitespace with
  | c :: cs => some ((c :: cs).takeWhile (fun d => !(isLineTerm d)))
  | [] =>
    match (rest.takeWhile isJsWhitespace).reverse.find? (fun d => !(isLineTerm d)) with
    | some c => some [c]
    | none => none

/-- Leftmost-occurrence scan for `/CORRECTED:\s*(.+)/i`. -/
def scanCorrected : List Char → Option (List Char)
  | [] => none
  | c :: cs =>
    match ciLit "corrected:".toList (c :: cs) with
    | some rest =>
      match corrCapture rest with
      | some capture => some capture
      | none => scanCorrected cs
    | none => scanCorrected cs

/-- `response.match(/LANGUAGE:\s*([a-z]\x7b2\x7d)/i)`, capture group
already lower-cased as the JS code does with `.toLowerCase()`. -/
def matchLanguageTag (s : String) : Option String :=
  (scanLanguage s.toList).map String.mk

/-- `response.match(/CORRECTED:\s*(.+)/i)`, raw capture group. -/
def matchCorrectedTag (s : String) : Option String :=
  (scanCorrected s.toList).map String.mk

/-! ## Language correction service (`detectLanguageAndCorrect`) -/

/-- Result record `\x7b language, correctedText \x7d`. -/
structure Correction where
  language : String
  correctedText : String
deriving DecidableEq, Repr

/-- `detectLanguageAndCorrect(text)`. The first argument is the oracle
for the completion provider: `none` models any thrown provider error
(caught by the surrounding `try`, which returns the original text with
language `en`); `some raw` models a successful call whose message
content is `raw`. On success the content is trimmed and both tags are
parsed, each falling back independently (`en` and the original text). -/
def detectLanguageAndCorrect : Option String → String → Correction
  | none, text => ⟨"en", text⟩
  | some raw, text =>
    ⟨(matchLanguageTag (jsTrim raw)).getD "en",
     ((matchCorrectedTag (jsTrim raw)).map jsTrim).getD text⟩

/-! ## Synthesis locale mapping -/

/-- The ten-entry `languageMapping` table. -/
def languageMapping : List (String × String) :=
  [("en", "en-IN"), ("hi", "hi-IN"), ("ta", "ta-IN"), ("te", "te-IN"),
   ("ml", "ml-IN"), ("kn", "kn-IN"), ("mr", "mr-IN"), ("bn", "bn-IN"),
   ("gu", "gu-IN"), ("pa", "pa-IN")]

/-- `getSarvamLanguageCode(googleLangCode)`:
`languageMapping[googleLangCode] || 'en-IN'`. -/
def getSarvamLanguageCode (googleLangCode : String) : String :=
  (languageMapping.lookup googleLangCode).getD "en-IN"

/-- The `languageNames` table used to phrase the per-turn language
instruction, with its `|| 'English'` fallback. -/
def languageNames : List (String × String) :=
  [("en", "English"), ("hi", "Hindi"), ("ta", "Tamil"), ("te", "Telugu"),
   ("ml", "Malayalam"), ("kn", "Kannada"), ("mr", "Marathi"), ("bn", "Bengali"),
   ("gu", "Gujarati"), ("pa", "Punjabi")]

def lookupLanguageName (code : String) : String :=
  (languageNames.lookup code).getD "English"

/-! ## Configuration and provider oracles -/

/-- The configuration a request handler reads: `activeConfig.systemPrompt`
from `config/data.js` and `process.env.PUBLIC_URL`. -/
structure Config where
  systemPrompt : String
  publicUrl : String

/-- Per-request oracles for the external providers and the UUID source.
`correctionResp` feeds `detectLanguageAndCorrect`; `completion` is the
chat-completion provider (`none` models a thrown error); `sarvam` maps
(text, target locale code) to the response `audios` array (`none` models
a failed request); `audioFileName` is the generated UUID file name. -/
structure Deps where
  correctionResp : Option String
  completion : List Turn → Option String
  sarvamConfigured : Bool
  sarvam : String → String → Option (List String)
  audioFileName : String

/-! ## Per-turn system prompts -/

/-- The per-turn system prompt of the phone path (`/handle-speech`):
persona prompt plus the mandatory-response-language instruction. -/
def mkPhoneSystemContent (systemPrompt languageName : String) : String :=
  systemPrompt ++ "\n\nCRITICAL LANGUAGE INSTRUCTION:\nThe user is speaking in " ++
  languageName ++ ". You MUST respond ONLY in " ++ languageName ++
  ".\n- Write your ENTIRE response in " ++ languageName ++
  " language\n- For Indian languages, you can use Roman script (transliteration) or native script\n- Do NOT use English at all unless the user is speaking English\n- Do NOT mix languages\n- Keep responses concise (under 30 words) for phone calls\n\nThis is MANDATORY. Respond in " ++
  languageName ++ " ONLY."

/-- The per-turn system prompt of the web chat path (`/chat`). -/
def mkWebSystemContent (systemPrompt languageName : String) : String :=
  systemPrompt ++ "\n\nCRITICAL LANGUAGE INSTRUCTION:\nThe user is speaking in " ++
  languageName ++ ". You MUST respond ONLY in " ++ languageName ++
  ".\n- Write your ENTIRE response in " ++ languageName ++
  " language using the appropriate script (Devanagari for Hindi/Marathi, Tamil script for Tamil, etc.)\n- Do NOT use English at all\n- Do NOT mix languages\n- If you don\x27t know how to say something in " ++
  languageName ++ ", still try your best to use " ++ languageName ++
  "\n\nThis is MANDATORY. Respond in " ++ languageName ++ " ONLY."

/-! ## Text-to-speech adapter (Sarvam) and TwiML actions -/

/-- The TwiML verbs the handlers emit: `gather` wrapping `say` or
`play`, a bare `say`, and `hangup`. -/
inductive TwimlVerb where
  | gatherSay (text : String)
  | gatherPlay (url : String)
  | say (text : String)
  | hangup
deriving DecidableEq, Repr

/-- The synthesis step of `handleSarvamAIResponse` up to and including
the `if (!audioBase64) throw` check: `none` in the oracle models a
failed axios request, and a missing or empty `audios[0]` raises
`No audio data in Sarvam response`. On success the first payload is
returned. -/
def sarvamSynthesize (sarvamResp : Option (List String)) : Except String String :=
  match sarvamResp with
  | none => Except.error "Sarvam request failed"
  | some audios =>
    match audios.head? with
    | none => Except.error "No audio data in Sarvam response"
    | some audioBase64 =>
      if audioBase64 = "" then Except.error "No audio data in Sarvam response"
      else Except.ok audioBase64

/-- `handleSarvamAIResponse(twiml, text, callSid, detectedLanguage)`:
on synthesis success, writes one audio file and plays its public URL in
a `gather`; every error is caught in-function and falls back to the
telephony provider speaking the raw text (`gather.say`), with no file
written. Returns the emitted verb and the list of files written. -/
def handleSarvamAIResponse (cfg : Config) (deps : Deps) (text detectedLanguage : String) :
    TwimlVerb × List String :=
  match sarvamSynthesize (deps.sarvam text (getSarvamLanguageCode detectedLanguage)) with
  | Except.ok _ =>
    (TwimlVerb.gatherPlay (cfg.publicUrl ++ "/audio/" ++ deps.audioFileName),
     [deps.audioFileName])
  | Except.error _ => (TwimlVerb.gatherSay text, [])

/-! ## Phone-channel orchestrator -/

/-- Everything observable a `/handle-speech` invocation produces:
the session store afterwards, the TwiML verbs rendered, the message
array sent to the completion provider (if a call was made), and the
audio files written. -/
structure SpeechOutcome where
  store : SessionStore
  twiml : List TwimlVerb
  request : Option (List Turn)
  files : List String
deriving Repr

/-- TwiML of the no-speech / unknown-session branch of `/handle-speech`. -/
def noSpeechTwiml : List TwimlVerb :=
  [TwimlVerb.gatherSay "I did not catch that. Please speak clearly after the tone.",
   TwimlVerb.say "I could not hear you. Please call back. Goodbye.",
   TwimlVerb.hangup]

/-- TwiML of the `catch` branch of the conversation loop. -/
def conversationErrorTwiml : List TwimlVerb :=
  [TwimlVerb.gatherSay "I seem to be having some trouble. Please try speaking again.",
   TwimlVerb.say "Thank you for calling. Goodbye.",
   TwimlVerb.hangup]

/-- The `messagesWithLanguage` array built per turn: synthetic system
prompt with the language instruction, then `history.slice(1)` (the
stored history with its first entry dropped), then the new user turn
with the corrected text. -/
def phoneTurnMessages (cfg : Config) (deps : Deps) (userSpeech : String)
    (history : List Turn) : List Turn :=
  Turn.mk Role.system
      (mkPhoneSystemContent cfg.systemPrompt
        (lookupLanguageName (detectLanguageAndCorrect deps.correctionResp userSpeech).language))
      none
    :: (history.drop 1 ++
        [Turn.mk Role.user (detectLanguageAndCorrect deps.correctionResp userSpeech).correctedText none])

/-- The `try` block of `/handle-speech` for a known session with
non-empty speech: language correction, completion call on
`phoneTurnMessages`, then (only on completion success) the two history
pushes and the response rendering; a completion failure is caught and
answered with a retry prompt, leaving the store untouched. -/
def processTurn (cfg : Config) (deps : Deps) (store : SessionStore) (callSid : String)
    (history : List Turn) (userSpeech : String) : SpeechOutcome :=
  let corr := detectLanguageAndCorrect deps.correctionResp userSpeech
  let msgs := phoneTurnMessages cfg deps userSpeech history
  match deps.completion msgs with
  | none => ⟨store, conversationErrorTwiml, some msgs, []⟩
  | some gptResponse =>
    let userTurn := Turn.mk Role.user corr.correctedText
      (some ⟨some corr.language, some userSpeech, none⟩)
    let assistantTurn := Turn.mk Role.assistant gptResponse
      (some ⟨none, none, some corr.language⟩)
    let store2 := storeSet store callSid (history ++ [userTurn, assistantTurn])
    if deps.sarvamConfigured then
      let resp := handleSarvamAIResponse cfg deps gptResponse corr.language
      ⟨store2, [resp.1], some msgs, resp.2⟩
    else
      ⟨store2, [TwimlVerb.gatherSay gptResponse], some msgs, []⟩

/-- `app.post('/handle-speech')`: guards
`userSpeech && callSid && conversationHistory.has(callSid)` (JS string
truthiness: a missing or empty value fails the guard), then runs the
conversation turn; otherwise re-prompts. -/
def handleSpeech (cfg : Config) (deps : Deps) (store : SessionStore)
    (callSid userSpeech : Option String) : SpeechOutcome :=
  match callSid, userSpeech with
  | some sid, some u =>
    if sid.isEmpty || u.isEmpty then ⟨store, noSpeechTwiml, none, []⟩
    else
      match storeGet store sid with
      | some history => processTurn cfg deps store sid history u
      | none => ⟨store, noSpeechTwiml, none, []⟩
  | _, _ => ⟨store, noSpeechTwiml, none, []⟩

/-- `app.post('/twilio-voice')`: creates the session transcript as a
single system entry holding the persona prompt, then greets and gathers
speech. -/
def twilioVoice (cfg : Config) (store : SessionStore) (callSid : String) :
    SessionStore × List TwimlVerb :=
  (storeSet store callSid [Turn.mk Role.system cfg.systemPrompt none],
   [TwimlVerb.gatherSay "This is the test call for you, You can speak now the assistant will respond accordingly.",
    TwimlVerb.hangup])

/-- The four terminal call statuses of `/call-status`. -/
def isTerminalStatus (s : String) : Bool :=
  s == "completed" || s == "failed" || s == "busy" || s == "no-answer"

/-- `app.post('/call-status')`: on a terminal status, deletes the
session if present; otherwise the store is untouched. -/
def callStatus (store : SessionStore) (callSid status : String) : SessionStore :=
  if isTerminalStatus status then
    if (storeGet store callSid).isSome then storeDelete store callSid else store
  else store

/-! ## Web chat endpoint -/

/-- The JSON body `\x7b detectedLanguage, response, audioUrl \x7d`. -/
structure ChatJson where
  detectedLanguage : String
  response : String
  audioUrl : Option String
deriving DecidableEq, Repr

/-- Observable outcome of one `/chat` request: the HTTP result (an
`error` is the 500 body message), the log lines, and the audio files
written. -/
structure ChatOutcome where
  result : Except String ChatJson
  log : List String
  files : List String

/-- The canned greeting returned for the `__GREETING__` sentinel. -/
def chatGreeting : String :=
  "Hello! I am your assistant at the Skillora Design Academy. How can I help you today?"

/-- The inner Sarvam block of `/chat`: runs only when a synthesis key is
configured; any failure or missing payload is swallowed, leaving the
audio URL `null`; on success the relative URL of the written file is
returned. -/
def chatSynthesize (deps : Deps) (text detectedLanguage : String) :
    Option String × List String :=
  if deps.sarvamConfigured then
    match deps.sarvam text (getSarvamLanguageCode detectedLanguage) with
    | none => (none, [])
    | some audios =>
      match audios.head? with
      | none => (none, [])
      | some audioBase64 =>
        if audioBase64 = "" then (none, [])
        else (some ("/audio/" ++ deps.audioFileName), [deps.audioFileName])
  else (none, [])

/-- `app.post('/chat')`: the `__GREETING__` sentinel short-circuits the
completion call with the canned greeting (language stays `en`); any
other message runs correction and a completion call on
[web system prompt] ++ client history ++ [corrected user turn]; a
completion failure propagates to the outer catch, which answers 500
with `Failed to process message`. Either success path then attempts
synthesis. The session id is read from the `x-session-id` header and
used in log lines only. -/
def chatEndpoint (cfg : Config) (deps : Deps) (sessionId message : String)
    (clientHistory : List Turn) : ChatOutcome :=
  if message = "__GREETING__" then
    let audio := chatSynthesize deps chatGreeting "en"
    ⟨Except.ok ⟨"en", chatGreeting, audio.1⟩,
     ["[" ++ sessionId ++ "] Web chat message: " ++ message,
      "[" ++ sessionId ++ "] Sending greeting"],
     audio.2⟩
  else
    let corr := detectLanguageAndCorrect deps.correctionResp message
    let languageName := lookupLanguageName corr.language
    let msgs := Turn.mk Role.system (mkWebSystemContent cfg.systemPrompt languageName) none
      :: (clientHistory ++ [Turn.mk Role.user corr.correctedText none])
    match deps.completion msgs with
    | none =>
      ⟨Except.error "Failed to process message",
       ["[" ++ sessionId ++ "] Web chat message: " ++ message], []⟩
    | some gptResponse =>
      let audio := chatSynthesize deps gptResponse corr.language
      ⟨Except.ok ⟨corr.language, gptResponse, audio.1⟩,
       ["[" ++ sessionId ++ "] Web chat message: " ++ message], audio.2⟩

/-! ## Transient audio-file janitor -/

/-- The timer body of `scheduleAudioCleanup(filePath, delayMs)`: when
the one-shot timer fires, the file is unlinked only if it exists, and
the path is removed from the pending-cleanup map. The filesystem is a
list of distinct paths; the queue maps paths to timer handles. -/
def cleanupFire (fsys : List String) (queue : List (String × Nat)) (filePath : String) :
    List String × List (String × Nat) :=
  ((if filePath ∈ fsys then fsys.filter (fun q => !(q == filePath)) else fsys),
   queue.filter (fun e => !(e.1 == filePath)))

/-! ## Transcript shape and reachable stores -/

/-- Two adjacent transcript entries have different roles. -/
def roleNe (a b : Turn) : Prop := a.role ≠ b.role

/-- A list of turns that consists of user/assistant pairs, in that
order: the shape of everything a session accumulates after its initial
system entry. -/
inductive UA : List Turn → Prop where
  | nil : UA []
  | cons (t₁ t₂ : Turn) (rest : List Turn) :
      t₁.role = Role.user → t₂.role = Role.assistant → UA rest → UA (t₁ :: t₂ :: rest)

/-- Invariant of one stored transcript: a single system entry holding
the persona prompt, followed by user/assistant pairs. -/
def HistInv (systemPrompt : String) (h : List Turn) : Prop :=
  ∃ rest, h = Turn.mk Role.system systemPrompt none :: rest ∧ UA rest

/-- Session stores reachable through the server's operations: the empty
initial map, call start (`/twilio-voice`), speech handling
(`/handle-speech`, with arbitrary provider behaviour), and call-status
events (`/call-status`). -/
inductive Reachable (systemPrompt : String) : SessionStore → Prop where
  | init : Reachable systemPrompt []
  | voice (store : SessionStore) (publicUrl callSid : String) :
      Reachable systemPrompt store →
      Reachable systemPrompt (twilioVoice ⟨systemPrompt, publicUrl⟩ store callSid).1
  | speech (store : SessionStore) (publicUrl : String) (deps : Deps)
      (callSid userSpeech : Option String) :
      Reachable systemPrompt store →
      Reachable systemPrompt
        (handleSpeech ⟨systemPrompt, publicUrl⟩ deps store callSid userSpeech).store
  | status (store : SessionStore) (callSid st : String) :
      Reachable systemPrompt store →
      Reachable systemPrompt (callStatus store callSid st)

/-! # Theorems -/

/-! ## Session-store lemmas -/

theorem storeGet_storeSet (s : SessionStore) (k k' : String) (v : List Turn) :
    storeGet (storeSet s k v) k' = if k = k' then some v else storeGet s k' := by
  induction s with
  | nil => simp [storeSet, storeGet]
  | cons p rest ih =>
    obtain ⟨k₀, v₀⟩ := p
    by_cases h₀ : k₀ = k
    · subst h₀
      by_cases h₁ : k₀ = k' <;> simp [storeSet, storeGet, h₁]
    · simp only [storeSet, if_neg h₀, storeGet, ih]
      by_cases h₁ : k₀ = k' <;> by_cases h₂ : k = k'
      · exact absurd (h₁.trans h₂.symm) h₀
      · simp [h₁, h₂]
      · simp [h₁, h₂]
      · simp [h₁, h₂]

theorem storeGet_storeDelete (s : SessionStore) (k k' : String) :
    storeGet (storeDelete s k) k' = if k = k' then none else storeGet s k' := by
  induction s with
  | nil => simp [storeDelete, storeGet]
  | cons p rest ih =>
    obtain ⟨k₀, v₀⟩ := p
    by_cases h₀ : k₀ = k
    · subst h₀
      by_cases h₁ : k₀ = k'
      · subst h₁; simp [storeDelete, storeGet, ih]
      · simp [storeDelete, storeGet, h₁, ih]
    · simp only [storeDelete, if_neg h₀, storeGet, ih]
      by_cases h₁ : k₀ = k' <;> by_cases h₂ : k = k'
      · exact absurd (h₁.trans h₂.symm) h₀
      · simp [h₁, h₂]
      · simp [h₁, h₂]
      · simp [h₁, h₂]

/-! ## Claim C1 -/

/-- Claim C1: the language correction operation never propagates an
error: a provider failure returns the original utterance with language
`en`; when the provider responds, a missing `LANGUAGE` tag defaults the
language to `en` and a missing `CORRECTED` tag defaults the corrected
text to the original input. -/
theorem detectLanguageAndCorrect_fail_soft (text raw : String) :
    detectLanguageAndCorrect none text = ⟨"en", text⟩ ∧
    (matchLanguageTag (jsTrim raw) = none →
      (detectLanguageAndCorrect (some raw) text).language = "en") ∧
    (matchCorrectedTag (jsTrim raw) = none →
      (detectLanguageAndCorrect (some raw) text).correctedText = text) := by
  refine ⟨rfl, ?_, ?_⟩ <;> intro h <;> simp [detectLanguageAndCorrect, h]

/-- Witness for C1 at a concrete taglesss provider response. -/
theorem detectLanguageAndCorrect_fail_soft_witness :
    detectLanguageAndCorrect none "hola" = ⟨"en", "hola"⟩ ∧
    (detectLanguageAndCorrect (some "REASON: ok") "hola").language = "en" ∧
    (detectLanguageAndCorrect (some "REASON: ok") "hola").correctedText = "hola" := by
  have h := detectLanguageAndCorrect_fail_soft "hola" "REASON: ok"
  exact ⟨h.1, h.2.1 (by decide), h.2.2 (by decide)⟩

/-! ## Claim C3 -/

/-- Claim C3: after a call-status event with a terminal status the
session is absent from the store; a second terminal event for the same
identifier is a no-op; and deleting a nonexistent session raises no
error and leaves the store unchanged. -/
theorem callStatus_terminal_idempotent (store : SessionStore) (sid status : String)
    (hterm : isTerminalStatus status = true) :
    storeGet (callStatus store sid status) sid = none ∧
    callStatus (callStatus store sid status) sid status = callStatus store sid status ∧
    (storeGet store sid = none → callStatus store sid status = store) := by
  cases hget : storeGet store sid with
  | none =>
    have h1 : callStatus store sid status = store := by
      simp [callStatus, hterm, hget]
    refine ⟨?_, ?_, fun _ => h1⟩
    · rw [h1]; exact hget
    · rw [h1]; exact h1
  | some v =>
    have h1 : callStatus store sid status = storeDelete store sid := by
      simp [callStatus, hterm, hget]
    have h2 : storeGet (storeDelete store sid) sid = none := by
      simp [storeGet_storeDelete]
    refine ⟨?_, ?_, ?_⟩
    · rw [h1]; exact h2
    · rw [h1]; simp [callStatus, hterm, h2]
    · intro hc; simp at hc

/-- Witness for C3 at a concrete store and the `completed` status. -/
theorem callStatus_terminal_idempotent_witness :
    storeGet (callStatus [("CA1", [Turn.mk Role.system "P" none])] "CA1" "completed") "CA1"
        = none ∧
    callStatus (callStatus [("CA1", [Turn.mk Role.system "P" none])] "CA1" "completed")
        "CA1" "completed"
      = callStatus [("CA1", [Turn.mk Role.system "P" none])] "CA1" "completed" := by
  have h := callStatus_terminal_idempotent [("CA1", [Turn.mk Role.system "P" none])]
    "CA1" "completed" (by decide)
  exact ⟨h.1, h.2.1⟩

/-! ## Claim C4 -/

/-- Claim C4: the synthesis locale mapping returns the table entry for
each of the ten supported codes and the baseline `en-IN` for every code
outside the table, never raising. -/
theorem getSarvamLanguageCode_total (code : String) :
    (∀ p ∈ languageMapping, getSarvamLanguageCode p.1 = p.2) ∧
    (languageMapping.lookup code = none → getSarvamLanguageCode code = "en-IN") ∧
    languageMapping.length = 10 := by
  refine ⟨by decide, ?_, by decide⟩
  intro h
  simp [getSarvamLanguageCode, h]

/-- Witness for C4 at a mapped code and an unmapped code. -/
theorem getSarvamLanguageCode_total_witness :
    getSarvamLanguageCode "hi" = "hi-IN" ∧ getSarvamLanguageCode "fr" = "en-IN" := by
  exact ⟨(getSarvamLanguageCode_total "fr").1 ("hi", "hi-IN") (by decide),
         (getSarvamLanguageCode_total "fr").2.1 (by decide)⟩

/-! ## Claim C7 -/

/-- Claim C7: the janitor's timer deletes the file only if present
(an absent file leaves the filesystem unchanged and raises no error),
removes exactly the scheduled path, removes the path's registration
from the pending map, and is idempotent: firing a second time for the
same path changes nothing. -/
theorem cleanupFire_idempotent (fsys : List String) (queue : List (String × Nat))
    (filePath : String) :
    filePath ∉ (cleanupFire fsys queue filePath).1 ∧
    (∀ x, x ≠ filePath → (x ∈ (cleanupFire fsys queue filePath).1 ↔ x ∈ fsys)) ∧
    (∀ n, (filePath, n) ∉ (cleanupFire fsys queue filePath).2) ∧
    (filePath ∉ fsys → (cleanupFire fsys queue filePath).1 = fsys) ∧
    cleanupFire (cleanupFire fsys queue filePath).1 (cleanupFire fsys queue filePath).2
        filePath
      = cleanupFire fsys queue filePath := by
  have hqueue : ∀ l : List (String × Nat),
      (l.filter (fun e => !(e.1 == filePath))).filter (fun e => !(e.1 == filePath))
        = l.filter (fun e => !(e.1 == filePath)) := by
    intro l
    rw [List.filter_filter]
    simp
  by_cases hc : filePath ∈ fsys
  · have h1 : cleanupFire fsys queue filePath
        = (fsys.filter (fun q => !(q == filePath)),
           queue.filter (fun e => !(e.1 == filePath))) := by
      simp [cleanupFire, hc]
    have hmem : filePath ∉ fsys.filter (fun q => !(q == filePath)) := by
      simp [List.mem_filter]
    rw [h1]
    refine ⟨hmem, ?_, ?_, fun h => absurd hc h, ?_⟩
    · intro x hx; simp [List.mem_filter, hx]
    · intro n; simp [List.mem_filter]
    · simp [cleanupFire, hmem, hqueue queue]
  · have h1 : cleanupFire fsys queue filePath
        = (fsys, queue.filter (fun e => !(e.1 == filePath))) := by
      simp [cleanupFire, hc]
    rw [h1]
    refine ⟨hc, fun x _ => Iff.rfl, ?_, fun _ => rfl, ?_⟩
    · intro n; simp [List.mem_filter]
    · simp [cleanupFire, hc, hqueue queue]

/-! ## Claim C2 -/

/-- Counterexample for C2 as stated: a greeting request with the
synthesis provider configured and returning an audio payload produces
the canned greeting but a NON-null audio URL, because the `/chat`
handler runs the Sarvam block for the greeting as well. -/
theorem chat_greeting_counterexample :
    (chatEndpoint ⟨"P", "http://pub"⟩
        ⟨none, fun _ => none, true, fun _ _ => some ["QUJD"], "cx.wav"⟩
        "s1" "__GREETING__" []).result.map ChatJson.audioUrl
      = Except.ok (some "/audio/cx.wav") ∧
    (chatEndpoint ⟨"P", "http://pub"⟩
        ⟨none, fun _ => none, true, fun _ _ => some ["QUJD"], "cx.wav"⟩
        "s1" "__GREETING__" []).result.map ChatJson.response
      = Except.ok chatGreeting ∧
    (some "/audio/cx.wav" : Option String) ≠ none := by
  refine ⟨rfl, rfl, by simp⟩

/-- Claim C2 (amended): a greeting-sentinel request always answers with
the fixed canned greeting and detected language `en`, regardless of the
client-supplied history; the audio URL is null whenever the synthesis
provider is not configured (when it is configured and synthesis
succeeds, the URL points at the synthesized greeting audio instead). -/
theorem chat_greeting_roundtrip (cfg : Config) (deps : Deps) (sessionId : String)
    (clientHistory : List Turn) :
    (chatEndpoint cfg deps sessionId "__GREETING__" clientHistory).result.map
        ChatJson.response = Except.ok chatGreeting ∧
    (chatEndpoint cfg deps sessionId "__GREETING__" clientHistory).result.map
        ChatJson.detectedLanguage = Except.ok "en" ∧
    (deps.sarvamConfigured = false →
      (chatEndpoint cfg deps sessionId "__GREETING__" clientHistory).result.map
          ChatJson.audioUrl = Except.ok none) := by
  refine ⟨by simp [chatEndpoint, Except.map], by simp [chatEndpoint, Except.map], fun hs => ?_⟩
  simp [chatEndpoint, chatSynthesize, hs, Except.map]

/-- Witness for C2 (amended) at a concrete unconfigured deployment and
a nonempty client history. -/
theorem chat_greeting_roundtrip_witness :
    (chatEndpoint ⟨"P", "http://pub"⟩
        ⟨none, fun _ => none, false, fun _ _ => none, "w.wav"⟩
        "s2" "__GREETING__" [Turn.mk Role.user "old turn" none]).result.map
        ChatJson.response = Except.ok chatGreeting ∧
    (chatEndpoint ⟨"P", "http://pub"⟩
        ⟨none, fun _ => none, false, fun _ _ => none, "w.wav"⟩
        "s2" "__GREETING__" [Turn.mk Role.user "old turn" none]).result.map
        ChatJson.audioUrl = Except.ok none := by
  have h := chat_greeting_roundtrip ⟨"P", "http://pub"⟩
    ⟨none, fun _ => none, false, fun _ _ => none, "w.wav"⟩
    "s2" [Turn.mk Role.user "old turn" none]
  exact ⟨h.1, h.2.2 rfl⟩

/-! ## Claim C9 -/

/-- Claim C9: two web chat requests with equal bodies (message and
client-supplied history) and identical provider behaviour produce equal
JSON results whatever their `x-session-id` headers: the session id
influences the log lines only. -/
theorem chat_session_id_logging_only (cfg : Config) (deps : Deps)
    (sessionId₁ sessionId₂ message : String) (clientHistory : List Turn) :
    (chatEndpoint cfg deps sessionId₁ message clientHistory).result
      = (chatEndpoint cfg deps sessionId₂ message clientHistory).result := by
  unfold chatEndpoint
  by_cases h : message = "__GREETING__"
  · simp [h]
  · simp only [if_neg h]
    rcases detectLanguageAndCorrect deps.correctionResp message with ⟨lang, corrected⟩
    cases deps.completion (Turn.mk Role.system
        (mkWebSystemContent cfg.systemPrompt (lookupLanguageName lang)) none
      :: (clientHistory ++ [Turn.mk Role.user corrected none])) <;> rfl

/-- Witness for C7 at a concrete filesystem and queue. -/
theorem cleanupFire_idempotent_witness :
    "a.wav" ∉ (cleanupFire ["a.wav", "b.wav"] [("a.wav", 7)] "a.wav").1 ∧
    ("b.wav" ∈ (cleanupFire ["a.wav", "b.wav"] [("a.wav", 7)] "a.wav").1 ↔
      "b.wav" ∈ ["a.wav", "b.wav"]) ∧
    cleanupFire (cleanupFire ["a.wav", "b.wav"] [("a.wav", 7)] "a.wav").1
        (cleanupFire ["a.wav", "b.wav"] [("a.wav", 7)] "a.wav").2 "a.wav"
      = cleanupFire ["a.wav", "b.wav"] [("a.wav", 7)] "a.wav" := by
  have h := cleanupFire_idempotent ["a.wav", "b.wav"] [("a.wav", 7)] "a.wav"
  exact ⟨h.1, h.2.1 "b.wav" (by decide), h.2.2.2.2⟩

/-! ## Claim C5 -/

/-- Claim C5: for a known session with non-empty recognized speech, a
successful processing turn sends the completion provider exactly
[synthetic system message: persona prompt with the language
instruction] ++ [stored history minus its first entry] ++ [new user
message with the corrected text], and afterwards the stored history has
grown by exactly a user turn then an assistant turn, each carrying
language metadata. -/
theorem handleSpeech_turn (cfg : Config) (deps : Deps) (store : SessionStore)
    (sid u gpt : String) (history : List Turn)
    (hsid : sid.isEmpty = false) (hu : u.isEmpty = false)
    (hh : storeGet store sid = some history)
    (hc : deps.completion (phoneTurnMessages cfg deps u history) = some gpt) :
    (handleSpeech cfg deps store (some sid) (some u)).request
      = some ([Turn.mk Role.system
            (mkPhoneSystemContent cfg.systemPrompt
              (lookupLanguageName (detectLanguageAndCorrect deps.correctionResp u).language))
            none]
          ++ history.drop 1
          ++ [Turn.mk Role.user
                (detectLanguageAndCorrect deps.correctionResp u).correctedText none]) ∧
    storeGet (handleSpeech cfg deps store (some sid) (some u)).store sid
      = some (history ++
          [Turn.mk Role.user (detectLanguageAndCorrect deps.correctionResp u).correctedText
            (some ⟨some (detectLanguageAndCorrect deps.correctionResp u).language, some u, none⟩),
           Turn.mk Role.assistant gpt
            (some ⟨none, none, some (detectLanguageAndCorrect deps.correctionResp u).language⟩)]) := by
  have hmain : handleSpeech cfg deps store (some sid) (some u)
      = processTurn cfg deps store sid history u := by
    simp [handleSpeech, hsid, hu, hh]
  rw [hmain]
  simp only [processTurn, hc]
  by_cases hs : deps.sarvamConfigured <;>
    simp [hs, storeGet_storeSet, phoneTurnMessages]

/-- Witness for C5 at a concrete session and providers. -/
theorem handleSpeech_turn_witness :
    (handleSpeech ⟨"P", "http://pub"⟩
        ⟨none, fun _ => some "Try Graphic Design", false, fun _ _ => none, "a.wav"⟩
        [("CA1", [Turn.mk Role.system "P" none])]
        (some "CA1") (some "I like drawing")).request
      = some ([Turn.mk Role.system (mkPhoneSystemContent "P" "English") none]
          ++ [] ++ [Turn.mk Role.user "I like drawing" none]) ∧
    storeGet (handleSpeech ⟨"P", "http://pub"⟩
        ⟨none, fun _ => some "Try Graphic Design", false, fun _ _ => none, "a.wav"⟩
        [("CA1", [Turn.mk Role.system "P" none])]
        (some "CA1") (some "I like drawing")).store "CA1"
      = some ([Turn.mk Role.system "P" none] ++
          [Turn.mk Role.user "I like drawing" (some ⟨some "en", some "I like drawing", none⟩),
           Turn.mk Role.assistant "Try Graphic Design" (some ⟨none, none, some "en"⟩)]) := by
  have h := handleSpeech_turn ⟨"P", "http://pub"⟩
    ⟨none, fun _ => some "Try Graphic Design", false, fun _ _ => none, "a.wav"⟩
    [("CA1", [Turn.mk Role.system "P" none])]
    "CA1" "I like drawing" "Try Graphic Design" [Turn.mk Role.system "P" none]
    (by decide) (by decide) (by decide) rfl
  exact ⟨h.1, h.2⟩

/-! ## Claim C10 -/

/-- Claim C10: when the completion call of a phone turn fails after
language correction, the stored history is unchanged by the turn (no
user or assistant entry is appended) and the rendered response is the
retry prompt, not an error: the turn is atomic for the session store. -/
theorem handleSpeech_completion_failure_atomic (cfg : Config) (deps : Deps)
    (store : SessionStore) (sid u : String) (history : List Turn)
    (hsid : sid.isEmpty = false) (hu : u.isEmpty = false)
    (hh : storeGet store sid = some history)
    (hc : deps.completion (phoneTurnMessages cfg deps u history) = none) :
    (handleSpeech cfg deps store (some sid) (some u)).store = store ∧
    storeGet (handleSpeech cfg deps store (some sid) (some u)).store sid = some history ∧
    (handleSpeech cfg deps store (some sid) (some u)).twiml
      = [TwimlVerb.gatherSay "I seem to be having some trouble. Please try speaking again.",
         TwimlVerb.say "Thank you for calling. Goodbye.",
         TwimlVerb.hangup] := by
  have hmain : handleSpeech cfg deps store (some sid) (some u)
      = processTurn cfg deps store sid history u := by
    simp [handleSpeech, hsid, hu, hh]
  rw [hmain]
  simp only [processTurn, hc]
  exact ⟨trivial, hh, rfl⟩

/-- Witness for C10 at a concrete session with a failing completion
provider. -/
theorem handleSpeech_completion_failure_atomic_witness :
    (handleSpeech ⟨"P", "http://pub"⟩
        ⟨none, fun _ => none, false, fun _ _ => none, "a.wav"⟩
        [("CA2", [Turn.mk Role.system "P" none])]
        (some "CA2") (some "hello")).store
      = [("CA2", [Turn.mk Role.system "P" none])] ∧
    (handleSpeech ⟨"P", "http://pub"⟩
        ⟨none, fun _ => none, false, fun _ _ => none, "a.wav"⟩
        [("CA2", [Turn.mk Role.system "P" none])]
        (some "CA2") (some "hello")).twiml
      = [TwimlVerb.gatherSay "I seem to be having some trouble. Please try speaking again.",
         TwimlVerb.say "Thank you for calling. Goodbye.",
         TwimlVerb.hangup] := by
  have h := handleSpeech_completion_failure_atomic ⟨"P", "http://pub"⟩
    ⟨none, fun _ => none, false, fun _ _ => none, "a.wav"⟩
    [("CA2", [Turn.mk Role.system "P" none])]
    "CA2" "hello" [Turn.mk Role.system "P" none]
    (by decide) (by decide) (by decide) rfl
  exact ⟨h.1, h.2.2⟩

/-! ## Claim C8 -/

/-- Claim C8: when the synthesis provider answers a phone turn with a
response carrying no audio payload, the TTS step raises (models the
`if (!audioBase64) throw`), the phone path falls back to the telephony
provider speaking the same reply text, no audio file is written, and
the caller still receives a normal gather response. -/
theorem handleSpeech_tts_fallback (cfg : Config) (deps : Deps) (store : SessionStore)
    (sid u gpt : String) (history : List Turn) (audios : List String)
    (hsid : sid.isEmpty = false) (hu : u.isEmpty = false)
    (hh : storeGet store sid = some history)
    (hc : deps.completion (phoneTurnMessages cfg deps u history) = some gpt)
    (hcfgd : deps.sarvamConfigured = true)
    (hs : deps.sarvam gpt (getSarvamLanguageCode
            (detectLanguageAndCorrect deps.correctionResp u).language) = some audios)
    (hempty : audios.head?.getD "" = "") :
    sarvamSynthesize (some audios) = Except.error "No audio data in Sarvam response" ∧
    (handleSpeech cfg deps store (some sid) (some u)).twiml = [TwimlVerb.gatherSay gpt] ∧
    (handleSpeech cfg deps store (some sid) (some u)).files = [] := by
  have herr : sarvamSynthesize (some audios)
      = Except.error "No audio data in Sarvam response" := by
    cases ha : audios.head? with
    | none => simp [sarvamSynthesize, ha]
    | some a =>
      rw [ha] at hempty
      simp only [Option.getD_some] at hempty
      simp [sarvamSynthesize, ha, hempty]
  have hmain : handleSpeech cfg deps store (some sid) (some u)
      = processTurn cfg deps store sid history u := by
    simp [handleSpeech, hsid, hu, hh]
  rw [hmain]
  simp only [processTurn, hc, hcfgd]
  refine ⟨herr, ?_, ?_⟩ <;> simp [handleSarvamAIResponse, hs, herr]

/-- Witness for C8 at a concrete empty-payload synthesis response. -/
theorem handleSpeech_tts_fallback_witness :
    sarvamSynthesize (some [""]) = Except.error "No audio data in Sarvam response" ∧
    (handleSpeech ⟨"P", "http://pub"⟩
        ⟨none, fun _ => some "G", true, fun _ _ => some [""], "a.wav"⟩
        [("CA3", [Turn.mk Role.system "P" none])]
        (some "CA3") (some "hello")).twiml
      = [TwimlVerb.gatherSay "G"] ∧
    (handleSpeech ⟨"P", "http://pub"⟩
        ⟨none, fun _ => some "G", true, fun _ _ => some [""], "a.wav"⟩
        [("CA3", [Turn.mk Role.system "P" none])]
        (some "CA3") (some "hello")).files = [] := by
  have h := handleSpeech_tts_fallback ⟨"P", "http://pub"⟩
    ⟨none, fun _ => some "G", true, fun _ _ => some [""], "a.wav"⟩
    [("CA3", [Turn.mk Role.system "P" none])]
    "CA3" "hello" "G" [Turn.mk Role.system "P" none] [""]
    (by decide) (by decide) (by decide) rfl rfl rfl rfl
  exact ⟨h.1, h.2.1, h.2.2⟩

/-! ## Claim C6: transcript-shape lemmas -/

theorem ua_append (l : List Turn) (t₁ t₂ : Turn) (h : UA l)
    (h₁ : t₁.role = Role.user) (h₂ : t₂.role = Role.assistant) :
    UA (l ++ [t₁, t₂]) := by
  induction h with
  | nil => exact UA.cons t₁ t₂ [] h₁ h₂ UA.nil
  | cons s₁ s₂ rest hs₁ hs₂ hrest ih => exact UA.cons s₁ s₂ (rest ++ [t₁, t₂]) hs₁ hs₂ ih

theorem ua_roles (l : List Turn) (h : UA l) :
    ∀ t ∈ l, t.role = Role.user ∨ t.role = Role.assistant := by
  induction h with
  | nil => simp
  | cons t₁ t₂ rest h₁ h₂ hrest ih =>
    intro t ht
    rcases List.mem_cons.mp ht with rfl | ht
    · exact Or.inl h₁
    rcases List.mem_cons.mp ht with rfl | ht
    · exact Or.inr h₂
    · exact ih t ht

theorem ua_chain (l : List Turn) (h : UA l) : List.Chain' roleNe l := by
  induction h with
  | nil => simp
  | cons t₁ t₂ rest h₁ h₂ hrest ih =>
    rw [List.chain'_cons]
    refine ⟨by simp [roleNe, h₁, h₂], ?_⟩
    cases hrest with
    | nil => simp
    | cons s₁ s₂ rest' g₁ g₂ grest =>
      rw [List.chain'_cons]
      exact ⟨by simp [roleNe, h₂, g₁], ih⟩

theorem histInv_chain (sp : String) (h : List Turn) (hi : HistInv sp h) :
    List.Chain' roleNe h := by
  obtain ⟨rest, rfl, hua⟩ := hi
  cases hua with
  | nil => simp
  | cons t₁ t₂ rest' h₁ h₂ hrest =>
    rw [List.chain'_cons]
    exact ⟨by simp [roleNe, h₁], ua_chain _ (UA.cons t₁ t₂ rest' h₁ h₂ hrest)⟩

theorem mkPhoneSystemContent_ne (sp languageName : String) :
    mkPhoneSystemContent sp languageName ≠ sp := by
  intro h
  have hlen := congrArg String.length h
  rw [mkPhoneSystemContent] at hlen
  simp only [String.length_append] at hlen
  have hpos :
      0 < String.length "\n\nCRITICAL LANGUAGE INSTRUCTION:\nThe user is speaking in " := by
    decide
  omega

theorem histInv_no_synthetic (sp : String) (h : List Turn) (hi : HistInv sp h)
    (languageName : String) :
    Turn.mk Role.system (mkPhoneSystemContent sp languageName) none ∉ h := by
  obtain ⟨rest, rfl, hua⟩ := hi
  intro hmem
  rcases List.mem_cons.mp hmem with heq | hmem
  · have hco : mkPhoneSystemContent sp languageName = sp := by
      have := congrArg Turn.content heq
      simpa using this
    exact mkPhoneSystemContent_ne sp languageName hco
  · have hrole := ua_roles rest hua _ hmem
    simp at hrole

/-- Every store reachable through call start, speech handling and
call-status events maps each live session to a well-formed transcript:
one system entry holding the persona prompt, then user/assistant pairs. -/
theorem reachable_storeInv (sp : String) (s : SessionStore) (hr : Reachable sp s) :
    ∀ sid h, storeGet s sid = some h → HistInv sp h := by
  induction hr with
  | init => intro sid h hg; simp [storeGet] at hg
  | voice store pu callSid hr ih =>
    intro sid h hg
    have hv : (twilioVoice ⟨sp, pu⟩ store callSid).1
        = storeSet store callSid [Turn.mk Role.system sp none] := rfl
    rw [hv, storeGet_storeSet] at hg
    by_cases he : callSid = sid
    · rw [if_pos he] at hg
      injection hg with hg
      subst hg
      exact ⟨[], rfl, UA.nil⟩
    · rw [if_neg he] at hg
      exact ih sid h hg
  | status store callSid st hr ih =>
    intro sid h hg
    by_cases ht : isTerminalStatus st = true
    · by_cases hp : (storeGet store callSid).isSome = true
      · have hcs : callStatus store callSid st = storeDelete store callSid := by
          simp [callStatus, ht, hp]
        rw [hcs, storeGet_storeDelete] at hg
        by_cases he : callSid = sid
        · rw [if_pos he] at hg; cases hg
        · rw [if_neg he] at hg; exact ih sid h hg
      · have hcs : callStatus store callSid st = store := by
          simp [callStatus, ht, hp]
        rw [hcs] at hg
        exact ih sid h hg
    · have hcs : callStatus store callSid st = store := by
        simp [callStatus, ht]
      rw [hcs] at hg
      exact ih sid h hg
  | speech store pu deps callSid userSpeech hr ih =>
    intro sid h hg
    rcases callSid with _ | sidc
    · exact ih sid h hg
    rcases userSpeech with _ | u
    · exact ih sid h hg
    by_cases hemp : (sidc.isEmpty || u.isEmpty) = true
    · have hm : handleSpeech ⟨sp, pu⟩ deps store (some sidc) (some u)
          = ⟨store, noSpeechTwiml, none, []⟩ := by
        simp [handleSpeech, hemp]
      rw [hm] at hg
      exact ih sid h hg
    · cases hsg : storeGet store sidc with
      | none =>
        have hm : handleSpeech ⟨sp, pu⟩ deps store (some sidc) (some u)
            = ⟨store, noSpeechTwiml, none, []⟩ := by
          simp [handleSpeech, hemp, hsg]
        rw [hm] at hg
        exact ih sid h hg
      | some history =>
        have hm : handleSpeech ⟨sp, pu⟩ deps store (some sidc) (some u)
            = processTurn ⟨sp, pu⟩ deps store sidc history u := by
          simp [handleSpeech, hemp, hsg]
        rw [hm] at hg
        cases hcomp : deps.completion (phoneTurnMessages ⟨sp, pu⟩ deps u history) with
        | none =>
          simp only [processTurn, hcomp] at hg
          exact ih sid h hg
        | some gpt =>
          have hst : (processTurn ⟨sp, pu⟩ deps store sidc history u).store
              = storeSet store sidc (history ++
                  [Turn.mk Role.user
                    (detectLanguageAndCorrect deps.correctionResp u).correctedText
                    (some ⟨some (detectLanguageAndCorrect deps.correctionResp u).language,
                           some u, none⟩),
                   Turn.mk Role.assistant gpt
                    (some ⟨none, none,
                           some (detectLanguageAndCorrect deps.correctionResp u).language⟩)]) := by
            simp only [processTurn, hcomp]
            by_cases hsc : deps.sarvamConfigured = true <;> simp [hsc]
          rw [hst, storeGet_storeSet] at hg
          by_cases he : sidc = sid
          · rw [if_pos he] at hg
            injection hg with hg
            subst hg
            obtain ⟨rest, hrest, hua⟩ := ih sidc history hsg
            subst hrest
            refine ⟨rest ++
              [Turn.mk Role.user (detectLanguageAndCorrect deps.correctionResp u).correctedText
                (some ⟨some (detectLanguageAndCorrect deps.correctionResp u).language,
                       some u, none⟩),
               Turn.mk Role.assistant gpt
                (some ⟨none, none,
                       some (detectLanguageAndCorrect deps.correctionResp u).language⟩)],
              by simp, ?_⟩
            exact ua_append rest _ _ hua rfl rfl
          · rw [if_neg he] at hg
            exact ih sid h hg

/-- Claim C6: in every session store reachable through call start
(`/twilio-voice`), successful turn processing (`/handle-speech`) and
call-end deletion (`/call-status`), no stored transcript contains two
consecutive entries of the same role, and the per-turn
system-prompt-with-language-instruction message is synthetic: it is
never stored in any transcript. -/
theorem transcript_alternation (sp : String) (s : SessionStore) (hr : Reachable sp s)
    (sid : String) (h : List Turn) (hg : storeGet s sid = some h) :
    List.Chain' roleNe h ∧
    ∀ languageName,
      Turn.mk Role.system (mkPhoneSystemContent sp languageName) none ∉ h := by
  have hi := reachable_storeInv sp s hr sid h hg
  exact ⟨histInv_chain sp h hi, fun languageName => histInv_no_synthetic sp h hi languageName⟩

/-- Witness for C6 at a store reached by one call start and one
successful turn. -/
theorem transcript_alternation_witness :
    List.Chain' roleNe
      [Turn.mk Role.system "P" none,
       Turn.mk Role.user "hello" (some ⟨some "en", some "hello", none⟩),
       Turn.mk Role.assistant "G" (some ⟨none, none, some "en"⟩)] ∧
    Turn.mk Role.system (mkPhoneSystemContent "P" "English") none
      ∉ [Turn.mk Role.system "P" none,
         Turn.mk Role.user "hello" (some ⟨some "en", some "hello", none⟩),
         Turn.mk Role.assistant "G" (some ⟨none, none, some "en"⟩)] := by
  have h := transcript_alternation "P"
    (handleSpeech ⟨"P", "http://pub"⟩ ⟨none, fun _ => some "G", false, fun _ _ => none, "a.wav"⟩
      (twilioVoice ⟨"P", "http://pub"⟩ [] "CA9").1 (some "CA9") (some "hello")).store
    (Reachable.speech (twilioVoice ⟨"P", "http://pub"⟩ [] "CA9").1 "http://pub"
      ⟨none, fun _ => some "G", false, fun _ _ => none, "a.wav"⟩ (some "CA9") (some "hello")
      (Reachable.voice [] "http://pub" "CA9" Reachable.init))
    "CA9"
    [Turn.mk Role.system "P" none,
     Turn.mk Role.user "hello" (some ⟨some "en", some "hello", none⟩),
     Turn.mk Role.assistant "G" (some ⟨none, none, some "en"⟩)]
    (by decide)
  exact ⟨h.1, h.2 "English"⟩

end Skillora
